import Mathlib

/-!
Verification development for the katana storage core: typed KV store,
change-tracking index (BlockList + ChangeHistory), historical/latest state
providers, version stamping, and trie bindings.

Field elements (`Felt`) are modelled by their numeric value as `Nat`;
block numbers are `u64` values modelled as `Nat` (no arithmetic that could
overflow occurs in the modelled code paths).
-/

abbrev Felt := Nat
abbrev BlockNumber := Nat
abbrev ContractAddress := Felt
abbrev ClassHash := Felt
abbrev CompiledClassHash := Felt
abbrev StorageKey := Felt
abbrev StorageValue := Felt
abbrev Nonce := Felt

/-- An opaque contract-class payload (its contents are never inspected by the
storage layer). -/
abbrev ContractClass := Nat

/-- `katana_primitives::contract::GenericContractInfo`: per-contract record in
the `ContractInfo` table. -/
structure GenericContractInfo where
  nonce : Nonce
  class_hash : ClassHash
deriving DecidableEq, Repr

/-- Rust `Default::default()` for `GenericContractInfo` (both fields zero). -/
def GenericContractInfo.default : GenericContractInfo := ⟨0, 0⟩

/-- `katana_db::models::storage::StorageEntry`: dup-sorted value of the
`ContractStorage` table, subkey = `key`. -/
structure StorageEntry where
  key : StorageKey
  value : StorageValue
deriving DecidableEq, Repr

/-- `katana_db::models::storage::ContractStorageKey`. -/
structure ContractStorageKey where
  contract_address : ContractAddress
  key : StorageKey
deriving DecidableEq, Repr

/-- `katana_db::models::contract::ContractNonceChange`: dup-sorted value of
`NonceChangeHistory`, subkey = `contract_address`. -/
structure ContractNonceChange where
  contract_address : ContractAddress
  nonce : Nonce
deriving DecidableEq, Repr

/-- `katana_db::models::contract::ContractClassChange`: dup-sorted value of
`ClassChangeHistory`, subkey = `contract_address`. -/
structure ContractClassChange where
  contract_address : ContractAddress
  class_hash : ClassHash
deriving DecidableEq, Repr

/-- `katana_db::models::storage::ContractStorageEntry`: dup-sorted value of
`StorageChangeHistory`, subkey = `key : ContractStorageKey`. -/
structure ContractStorageEntry where
  key : ContractStorageKey
  value : StorageValue
deriving DecidableEq, Repr

/-- Modelled from the spec (§3, BlockList; `katana_db::models::list` is not
under `src/`): an ordered sparse set of block numbers, strictly increasing,
represented as the list of its elements. -/
abbrev BlockList := List BlockNumber

/-- Modelled from the spec (§3): `rank(n)` = count of elements `≤ n`. -/
def BlockList.rank (l : BlockList) (n : BlockNumber) : Nat :=
  (l.filter (fun b => decide (b ≤ n))).length

/-- Modelled from the spec (§3): `select(i)` = the i-th smallest element
(0-indexed); on a strictly increasing list this is the element at index `i`. -/
def BlockList.select (l : BlockList) (i : Nat) : Option BlockNumber :=
  l[i]?

/-- `katana_db::models::contract::ContractInfoChangeList`: value of the
`ContractInfoChangeSet` table. -/
structure ContractInfoChangeList where
  class_change_list : BlockList
  nonce_change_list : BlockList
deriving DecidableEq, Repr

/-- Rust `Default::default()` for `ContractInfoChangeList` (empty lists). -/
def ContractInfoChangeList.default : ContractInfoChangeList := ⟨[], []⟩

/-- `recent_change_from_block` from
`crates/storage/provider/src/providers/db/state.rs`: the block number of the
most recent change at or before `block_number`. -/
def recent_change_from_block (block_number : BlockNumber) (block_list : BlockList) :
    Option BlockNumber :=
  let rank := block_list.rank block_number
  if rank = 0 then none else block_list.select (rank - 1)

deriving instance DecidableEq for Except

/-! ### Dup-sorted cursor primitives

A dup-sorted table's duplicate group is modelled as a list of values kept in
ascending subkey order. `seekBy` models `seek_by_key_subkey` restricted to one
key's group: it positions at the first value whose subkey is `≥` the requested
subkey. `insertBy` inserts a value at its sorted position, replacing an
existing value with the same subkey (the write paths below only ever insert
after deleting an exact-subkey match, mirroring MDBX dup-sort behaviour). -/

/-- Total order on `Nat` subkeys as a boolean (big-endian byte order of `u64`
and of `Felt` agrees with numeric order). -/
def leNat (a b : Nat) : Bool := decide (a ≤ b)

/-- Byte order of the encoded `(contract_address, key)` pair: lexicographic. -/
def cskLe (a b : ContractStorageKey) : Bool :=
  decide (a.contract_address < b.contract_address ∨
    (a.contract_address = b.contract_address ∧ a.key ≤ b.key))

/-- First value in the group whose subkey (under projection `k`) is `≥ target`
in the order `le`. -/
def seekBy {α β : Type} (le : α → α → Bool) (k : β → α) (target : α)
    (l : List β) : Option β :=
  l.find? (fun y => le target (k y))

/-- Insert `e` into a group at its sorted position, replacing an entry with an
equal subkey. -/
def insertBy {α β : Type} [DecidableEq α] (le : α → α → Bool) (k : β → α)
    (e : β) : List β → List β
  | [] => [e]
  | x :: xs =>
    if le (k e) (k x) then
      (if k x = k e then e :: xs else e :: x :: xs)
    else
      x :: insertBy le k e xs

/-! ### Trie snapshots

`katana_db::trie::TrieDbFactory` is not under `src/`; it is modelled from the
spec (§4.6): binding to a specific historical block fails if that block was
never committed, and a bound snapshot determines the three commitment trees'
roots and multiproofs. A multiproof is an opaque payload. -/

abbrev MultiProof := Nat

/-- The commitment data determined by one bound trie snapshot. -/
structure TrieSnapshot where
  classesRoot : Felt
  contractsRoot : Felt
  storagesRoot : ContractAddress → Felt
  classesMultiproof : List ClassHash → MultiProof
  contractsMultiproof : List ContractAddress → MultiProof
  storagesMultiproof : ContractAddress → List StorageKey → MultiProof

/-- A block header; only the field the modelled code reads. -/
structure Header where
  state_root : Felt
deriving DecidableEq, Repr

/-- The database state visible to one transaction: one field per table used by
the state providers. Dup-sorted tables map the primary key to their duplicate
group (a list in ascending subkey order). `trieSnapshots` is the spec-modelled
trie binding: `none` for a block that was never committed. -/
structure DbState where
  contractInfo : ContractAddress → Option GenericContractInfo
  contractStorage : ContractAddress → List StorageEntry
  classes : ClassHash → Option ContractClass
  compiledClassHashes : ClassHash → Option CompiledClassHash
  classDeclarationBlock : ClassHash → Option BlockNumber
  contractInfoChangeSet : ContractAddress → Option ContractInfoChangeList
  storageChangeSet : ContractAddress → StorageKey → Option BlockList
  nonceChangeHistory : BlockNumber → List ContractNonceChange
  classChangeHistory : BlockNumber → List ContractClassChange
  storageChangeHistory : BlockNumber → List ContractStorageEntry
  headers : BlockNumber → Option Header
  trieSnapshots : BlockNumber → Option TrieSnapshot
  latestTrie : TrieSnapshot

/-- A state with every table empty (used to build concrete instances). -/
def DbState.empty : DbState where
  contractInfo := fun _ => none
  contractStorage := fun _ => []
  classes := fun _ => none
  compiledClassHashes := fun _ => none
  classDeclarationBlock := fun _ => none
  contractInfoChangeSet := fun _ => none
  storageChangeSet := fun _ _ => none
  nonceChangeHistory := fun _ => []
  classChangeHistory := fun _ => []
  storageChangeHistory := fun _ => []
  headers := fun _ => none
  trieSnapshots := fun _ => none
  latestTrie := ⟨0, 0, fun _ => 0, fun _ => 0, fun _ => 0, fun _ _ => 0⟩

/-- `ProviderError` variants raised by the historical provider
(`crates/storage/provider/src/error.rs`). -/
inductive ProviderError where
  | MissingContractNonceChangeEntry (block : BlockNumber)
      (contract_address : ContractAddress)
  | MissingContractClassChangeEntry (block : BlockNumber)
      (contract_address : ContractAddress)
  | MissingStorageChangeEntry (block : BlockNumber)
      (contract_address : ContractAddress) (storage_key : StorageKey)
deriving DecidableEq, Repr

/-! ### Writers (`StateWriter for DbProvider`, state.rs lines 20-90) -/

/-- `DbProvider::set_nonce`: read the `ContractInfo` row (default if absent),
replace its nonce, put it back. -/
def DbProvider.set_nonce (s : DbState) (address : ContractAddress)
    (nonce : Nonce) : DbState :=
  let value :=
    match s.contractInfo address with
    | some info => { info with nonce := nonce }
    | none => { GenericContractInfo.default with nonce := nonce }
  { s with contractInfo := fun a =>
      if a = address then some value else s.contractInfo a }

/-- `DbProvider::set_class_hash_of_contract`: read the `ContractInfo` row
(default if absent), replace its class hash, put it back. -/
def DbProvider.set_class_hash_of_contract (s : DbState)
    (address : ContractAddress) (class_hash : ClassHash) : DbState :=
  let value :=
    match s.contractInfo address with
    | some info => { info with class_hash := class_hash }
    | none => { GenericContractInfo.default with class_hash := class_hash }
  { s with contractInfo := fun a =>
      if a = address then some value else s.contractInfo a }

/-- `DbProvider::set_storage`: seek the dup group at `(address, storage_key)`,
delete an exact-subkey match, then upsert the new entry. -/
def DbProvider.set_storage (s : DbState) (address : ContractAddress)
    (storage_key : StorageKey) (storage_value : StorageValue) : DbState :=
  let group := s.contractStorage address
  let group :=
    match seekBy leNat (fun e => e.key) storage_key group with
    | some entry =>
      if entry.key = storage_key then
        group.eraseP (fun e => leNat storage_key e.key)
      else group
    | none => group
  let group := insertBy leNat (fun e => e.key)
    ⟨storage_key, storage_value⟩ group
  { s with contractStorage := fun a =>
      if a = address then group else s.contractStorage a }

/-- `ContractClassWriter::set_class`. -/
def DbProvider.set_class (s : DbState) (hash : ClassHash)
    (class_ : ContractClass) : DbState :=
  { s with classes := fun h => if h = hash then some class_ else s.classes h }

/-- `ContractClassWriter::set_compiled_class_hash_of_class_hash`. -/
def DbProvider.set_compiled_class_hash_of_class_hash (s : DbState)
    (hash : ClassHash) (compiled_hash : CompiledClassHash) : DbState :=
  { s with compiledClassHashes := fun h =>
      if h = hash then some compiled_hash else s.compiledClassHashes h }

/-! ### Latest state provider (state.rs lines 92-198) -/

/-- `LatestStateProvider::nonce`. -/
def LatestStateProvider.nonce (s : DbState) (address : ContractAddress) :
    Option Nonce :=
  (s.contractInfo address).map (fun info => info.nonce)

/-- `LatestStateProvider::class_hash_of_contract`. -/
def LatestStateProvider.class_hash_of_contract (s : DbState)
    (address : ContractAddress) : Option ClassHash :=
  (s.contractInfo address).map (fun info => info.class_hash)

/-- `LatestStateProvider::storage`: dup cursor seek, exact-subkey check. -/
def LatestStateProvider.storage (s : DbState) (address : ContractAddress)
    (storage_key : StorageKey) : Option StorageValue :=
  match seekBy leNat (fun e => e.key) storage_key (s.contractStorage address) with
  | some entry => if entry.key = storage_key then some entry.value else none
  | none => none

/-- `ContractClassProvider::class` for `LatestStateProvider`. -/
def LatestStateProvider.class (s : DbState) (hash : ClassHash) :
    Option ContractClass :=
  s.classes hash

/-- `ContractClassProvider::compiled_class_hash_of_class_hash` for
`LatestStateProvider`. -/
def LatestStateProvider.compiled_class_hash_of_class_hash (s : DbState)
    (hash : ClassHash) : Option CompiledClassHash :=
  s.compiledClassHashes hash

/-! ### Historical state provider (state.rs lines 200-333) -/

/-- `HistoricalStateProvider::is_class_declared_before_block`. -/
def is_class_declared_before_block (s : DbState) (block_number : BlockNumber)
    (hash : ClassHash) : Bool :=
  match s.classDeclarationBlock hash with
  | some num => decide (num ≤ block_number)
  | none => false

/-- `ContractClassProvider::class` for `HistoricalStateProvider`. -/
def HistoricalStateProvider.class (s : DbState) (block_number : BlockNumber)
    (hash : ClassHash) : Option ContractClass :=
  if is_class_declared_before_block s block_number hash then
    s.classes hash
  else
    none

/-- `ContractClassProvider::compiled_class_hash_of_class_hash` for
`HistoricalStateProvider`. -/
def HistoricalStateProvider.compiled_class_hash_of_class_hash (s : DbState)
    (block_number : BlockNumber) (hash : ClassHash) :
    Option CompiledClassHash :=
  if is_class_declared_before_block s block_number hash then
    s.compiledClassHashes hash
  else
    none

/-- The `change_list.and_then(|entry| recent_change_from_block(..))` step of
`HistoricalStateProvider::nonce`. -/
def resolveNonceChange (s : DbState) (block_number : BlockNumber)
    (address : ContractAddress) : Option BlockNumber :=
  (s.contractInfoChangeSet address).bind
    (fun entry => recent_change_from_block block_number entry.nonce_change_list)

/-- The corresponding step of `HistoricalStateProvider::class_hash_of_contract`. -/
def resolveClassChange (s : DbState) (block_number : BlockNumber)
    (address : ContractAddress) : Option BlockNumber :=
  (s.contractInfoChangeSet address).bind
    (fun entry => recent_change_from_block block_number entry.class_change_list)

/-- The corresponding step of `HistoricalStateProvider::storage`. -/
def resolveStorageChange (s : DbState) (block_number : BlockNumber)
    (address : ContractAddress) (storage_key : StorageKey) :
    Option BlockNumber :=
  (s.storageChangeSet address storage_key).bind
    (fun list => recent_change_from_block block_number list)

/-- `HistoricalStateProvider::nonce`. -/
def HistoricalStateProvider.nonce (s : DbState) (block_number : BlockNumber)
    (address : ContractAddress) : Except ProviderError (Option Nonce) :=
  match resolveNonceChange s block_number address with
  | some num =>
    match seekBy leNat (fun e => e.contract_address) address
        (s.nonceChangeHistory num) with
    | none => .error (.MissingContractNonceChangeEntry num address)
    | some entry =>
      if entry.contract_address = address then .ok (some entry.nonce)
      else .ok none
  | none => .ok none

/-- `HistoricalStateProvider::class_hash_of_contract`. -/
def HistoricalStateProvider.class_hash_of_contract (s : DbState)
    (block_number : BlockNumber) (address : ContractAddress) :
    Except ProviderError (Option ClassHash) :=
  match resolveClassChange s block_number address with
  | some num =>
    match seekBy leNat (fun e => e.contract_address) address
        (s.classChangeHistory num) with
    | none => .error (.MissingContractClassChangeEntry num address)
    | some entry =>
      if entry.contract_address = address then .ok (some entry.class_hash)
      else .ok none
  | none => .ok none

/-- `HistoricalStateProvider::storage`. -/
def HistoricalStateProvider.storage (s : DbState) (block_number : BlockNumber)
    (address : ContractAddress) (storage_key : StorageKey) :
    Except ProviderError (Option StorageValue) :=
  match resolveStorageChange s block_number address storage_key with
  | some num =>
    match seekBy cskLe (fun e => e.key) ⟨address, storage_key⟩
        (s.storageChangeHistory num) with
    | none => .error (.MissingStorageChangeEntry num address storage_key)
    | some entry =>
      if entry.key.contract_address = address ∧ entry.key.key = storage_key then
        .ok (some entry.value)
      else .ok none
  | none => .ok none

/-! ### Historical trie access (state.rs lines 336-411)

Each method binds the factory to the pinned block and panics (Rust `.expect`)
when the binding fails; the panic outcome is modelled as `none`, so `none`
means "the access failed" and `some` carries the successfully computed
result. -/

/-- Modelled from the spec (§4.6): `TrieDbFactory::historical(b)` succeeds
only for a committed block `b`. -/
def TrieDbFactory.historical (s : DbState) (b : BlockNumber) :
    Option TrieSnapshot :=
  s.trieSnapshots b

/-- `StateRootProvider::classes_root` for `HistoricalStateProvider`. -/
def HistoricalStateProvider.classes_root (s : DbState) (b : BlockNumber) :
    Option Felt :=
  (TrieDbFactory.historical s b).map (fun t => t.classesRoot)

/-- `StateRootProvider::contracts_root` for `HistoricalStateProvider`. -/
def HistoricalStateProvider.contracts_root (s : DbState) (b : BlockNumber) :
    Option Felt :=
  (TrieDbFactory.historical s b).map (fun t => t.contractsRoot)

/-- `StateRootProvider::storage_root` for `HistoricalStateProvider`. -/
def HistoricalStateProvider.storage_root (s : DbState) (b : BlockNumber)
    (contract : ContractAddress) : Option Felt :=
  (TrieDbFactory.historical s b).map (fun t => t.storagesRoot contract)

/-- `StateProofProvider::class_multiproof` for `HistoricalStateProvider`. -/
def HistoricalStateProvider.class_multiproof (s : DbState) (b : BlockNumber)
    (classes : List ClassHash) : Option MultiProof :=
  (TrieDbFactory.historical s b).map (fun t => t.classesMultiproof classes)

/-- `StateProofProvider::contract_multiproof` for `HistoricalStateProvider`. -/
def HistoricalStateProvider.contract_multiproof (s : DbState) (b : BlockNumber)
    (addresses : List ContractAddress) : Option MultiProof :=
  (TrieDbFactory.historical s b).map (fun t => t.contractsMultiproof addresses)

/-- `StateProofProvider::storage_multiproof` for `HistoricalStateProvider`. -/
def HistoricalStateProvider.storage_multiproof (s : DbState) (b : BlockNumber)
    (address : ContractAddress) (storage_keys : List StorageKey) :
    Option MultiProof :=
  (TrieDbFactory.historical s b).map
    (fun t => t.storagesMultiproof address storage_keys)

/-- `StateRootProvider::state_root` for `HistoricalStateProvider`: reads the
pinned block's header (panic on a missing header modelled as `none`). -/
def HistoricalStateProvider.state_root (s : DbState) (b : BlockNumber) :
    Option Felt :=
  (s.headers b).map (fun h => h.state_root)

/-! ### Version stamping (`crates/storage/db/src/version.rs`, `lib.rs`)

The file system is modelled by the optional content of the `db.version` file:
its byte list plus its read-only flag. -/

/-- `CURRENT_DB_VERSION` (`Version::new(7)`). -/
def CURRENT_DB_VERSION : Nat := 7

/-- The on-disk `db.version` file: raw bytes and the read-only permission
bit. -/
structure VersionFile where
  bytes : List Nat
  readonly : Bool
deriving DecidableEq, Repr

/-- `DatabaseVersionError` (version.rs), merged with the open-time wrapper:
`Db::new` surfaces these errors directly through `anyhow`. -/
inductive DatabaseVersionError where
  | FileNotFound
  | Io
  | MalformedContent
  | MismatchVersion (expected found : Nat)
deriving DecidableEq, Repr

/-- Big-endian 4-byte encoding of a `u32`. -/
def u32_to_be_bytes (v : Nat) : List Nat :=
  [v / 2 ^ 24 % 256, v / 2 ^ 16 % 256, v / 2 ^ 8 % 256, v % 256]

/-- `u32::from_be_bytes` on a 4-byte buffer. -/
def u32_from_be_bytes (b : List Nat) : Nat :=
  b.foldl (fun acc x => acc * 256 + x) 0

/-- `create_db_version_file`: writes the 4-byte stamp and marks the file
read-only. -/
def create_db_version_file (version : Nat) : VersionFile :=
  ⟨u32_to_be_bytes version, true⟩

/-- `is_block_compatible_version`: `(5..=CURRENT).contains(version)`. -/
def is_block_compatible_version (version : Nat) : Bool :=
  decide (5 ≤ version ∧ version ≤ CURRENT_DB_VERSION)

/-- `get_db_version`: `FileNotFound` if the file is absent, `MalformedContent`
if its length is not exactly 4 bytes, otherwise the big-endian value. -/
def get_db_version (file : Option VersionFile) :
    Except DatabaseVersionError Nat :=
  match file with
  | none => .error .FileNotFound
  | some f =>
    if f.bytes.length = 4 then .ok (u32_from_be_bytes f.bytes)
    else .error .MalformedContent

/-- `Db::require_migration`: the opened version differs from `CURRENT`. -/
def Db.require_migration (version : Nat) : Bool :=
  decide (version ≠ CURRENT_DB_VERSION)

/-- `Db::new`: version-stamp handling at open time. The input is whether the
database directory is empty plus the current `db.version` file; the output on
success is the resolved version together with the `db.version` file left on
disk. -/
def Db.new (dbEmpty : Bool) (file : Option VersionFile) :
    Except DatabaseVersionError (Nat × Option VersionFile) :=
  if dbEmpty then
    .ok (CURRENT_DB_VERSION, some (create_db_version_file CURRENT_DB_VERSION))
  else
    match get_db_version file with
    | .ok version =>
      if version ≠ CURRENT_DB_VERSION then
        if ¬ is_block_compatible_version version then
          .error (.MismatchVersion CURRENT_DB_VERSION version)
        else
          .ok (version, file)
      else
        .ok (version, file)
    | .error .FileNotFound =>
      .ok (CURRENT_DB_VERSION, some (create_db_version_file CURRENT_DB_VERSION))
    | .error e => .error e

/-! ### Cursor positional writes (`crates/storage/db/src/mdbx/cursor.rs`)

The cursor implementation itself is not under `src/`; `insert`/`upsert` are
modelled from the spec (§4.1, §4.2) and from the repository's own tests
(`db_cursor_insert`, `db_cursor_upsert` in mdbx/mod.rs): `insert` fails with
`DatabaseError::Write` naming the table, the MDBX `KeyExist` cause and the
encoded key when the key is already present, leaving the table unchanged;
`upsert` always succeeds by overwriting. A single-value table is a list of
key-value pairs in ascending key order. -/

/-- The underlying MDBX error cause recorded in a write error. -/
inductive MdbxErrorKind where
  | KeyExist
deriving DecidableEq, Repr

/-- `DatabaseError::Write { table, error, key }`. -/
inductive KVDatabaseError where
  | Write (table : String) (error : MdbxErrorKind) (key : List Nat)
deriving DecidableEq, Repr

/-- A named single-value table. -/
structure PlainTable (K V : Type) where
  name : String
  rows : List (K × V)
deriving Repr

/-- Big-endian 8-byte encoding of a `u64` key. -/
def u64_encode (n : Nat) : List Nat :=
  [n / 2 ^ 56 % 256, n / 2 ^ 48 % 256, n / 2 ^ 40 % 256, n / 2 ^ 32 % 256,
   n / 2 ^ 24 % 256, n / 2 ^ 16 % 256, n / 2 ^ 8 % 256, n % 256]

/-- Point lookup in a single-value table. -/
def PlainTable.get {K V : Type} [DecidableEq K] (t : PlainTable K V) (key : K) :
    Option V :=
  (t.rows.find? (fun r => decide (r.1 = key))).map (fun r => r.2)

/-- Modelled from the spec: cursor `insert(key, value)` — fails with a keyed
write error when an entry already occupies that position, returning the table
unchanged; otherwise inserts at the sorted position. -/
def PlainTable.insert {K V : Type} [DecidableEq K] (le : K → K → Bool)
    (encode : K → List Nat) (t : PlainTable K V) (key : K) (value : V) :
    Except KVDatabaseError Unit × PlainTable K V :=
  if t.rows.any (fun r => decide (r.1 = key)) then
    (.error (.Write t.name .KeyExist (encode key)), t)
  else
    (.ok (), ⟨t.name, insertBy le (fun r => r.1) (key, value) t.rows⟩)

/-- Modelled from the spec: cursor `upsert(key, value)` — always succeeds,
overwriting an existing entry at that key. -/
def PlainTable.upsert {K V : Type} [DecidableEq K] (le : K → K → Bool)
    (t : PlainTable K V) (key : K) (value : V) : PlainTable K V :=
  ⟨t.name, insertBy le (fun r => r.1) (key, value) t.rows⟩

/-! ### Block-commit write path

The block writer (`insert_block_with_states_and_receipts` in
`crates/storage/provider/src/providers/db/mod.rs`) is not under `src/`; the
per-key commit steps are modelled from the spec (§4.4): record the value the
key holds at the committing block into the ChangeHistory row `(b, K)` (§3: the
row at a block stores the value set at that exact block for the most recent
entry, §8 round-trip), overwrite the latest table, and append `b` to `K`'s
BlockList. -/

/-- Modelled from the spec: commit a storage change `(address, key) := value`
as part of block `b`. -/
def commitStorageChange (s : DbState) (b : BlockNumber)
    (address : ContractAddress) (key : StorageKey) (value : StorageValue) :
    DbState :=
  let s1 := DbProvider.set_storage s address key value
  let oldList := (s.storageChangeSet address key).getD []
  { s1 with
    storageChangeHistory := fun n =>
      if n = b then
        insertBy cskLe (fun e => e.key) ⟨⟨address, key⟩, value⟩
          (s.storageChangeHistory n)
      else s.storageChangeHistory n,
    storageChangeSet := fun a k =>
      if a = address ∧ k = key then some (oldList ++ [b])
      else s.storageChangeSet a k }

/-- Modelled from the spec: commit a nonce change for `address` as part of
block `b`. -/
def commitNonceChange (s : DbState) (b : BlockNumber)
    (address : ContractAddress) (nonce : Nonce) : DbState :=
  let s1 := DbProvider.set_nonce s address nonce
  let old := (s.contractInfoChangeSet address).getD ContractInfoChangeList.default
  { s1 with
    nonceChangeHistory := fun n =>
      if n = b then
        insertBy leNat (fun e => e.contract_address) ⟨address, nonce⟩
          (s.nonceChangeHistory n)
      else s.nonceChangeHistory n,
    contractInfoChangeSet := fun a =>
      if a = address then
        some { old with nonce_change_list := old.nonce_change_list ++ [b] }
      else s.contractInfoChangeSet a }

/-- Modelled from the spec: commit a class-binding change for `address` as
part of block `b`. -/
def commitClassChange (s : DbState) (b : BlockNumber)
    (address : ContractAddress) (class_hash : ClassHash) : DbState :=
  let s1 := DbProvider.set_class_hash_of_contract s address class_hash
  let old := (s.contractInfoChangeSet address).getD ContractInfoChangeList.default
  { s1 with
    classChangeHistory := fun n =>
      if n = b then
        insertBy leNat (fun e => e.contract_address) ⟨address, class_hash⟩
          (s.classChangeHistory n)
      else s.classChangeHistory n,
    contractInfoChangeSet := fun a =>
      if a = address then
        some { old with class_change_list := old.class_change_list ++ [b] }
      else s.contractInfoChangeSet a }

/-! ### Concrete states used to evaluate the claims -/

/-- A state whose storage BlockList for `(1, 2)` records a change at block 5,
while the block-5 `StorageChangeHistory` dup group holds only an entry with a
different embedded key `(1, 3)`: the dup-sorted seek at `(1, 2)` finds that
mismatched row. -/
def mismatchRowState : DbState :=
  { DbState.empty with
    storageChangeSet := fun a k => if a = 1 ∧ k = 2 then some [5] else none,
    storageChangeHistory := fun n =>
      if n = 5 then [⟨⟨1, 3⟩, 42⟩] else [] }

/-- A state whose change lists for contract `1` and slot `(1, 2)` record a
change at block 5 while every block-5 ChangeHistory dup group is empty: every
seek finds no row at all. -/
def absentRowState : DbState :=
  { DbState.empty with
    contractInfoChangeSet := fun a => if a = 1 then some ⟨[5], [5]⟩ else none,
    storageChangeSet := fun a k => if a = 1 ∧ k = 2 then some [5] else none }

/-- A state in which class hash `1` is declared at block 10 with its class
payload and compiled class hash present in the latest tables. -/
def declaredAt10State : DbState :=
  { DbState.empty with
    classDeclarationBlock := fun h => if h = 1 then some 10 else none,
    classes := fun h => if h = 1 then some 77 else none,
    compiledClassHashes := fun h => if h = 1 then some 88 else none }

/-- A concrete `BlockHashes`-like table (u64 keys) holding entries at keys 0
and 1. -/
def blockHashesTable : PlainTable Nat Nat :=
  ⟨"BlockHashes", [(0, 0), (1, 0)]⟩

/-! ### Supporting lemmas -/

theorem leNat_refl (a : Nat) : leNat a a = true := by simp [leNat]

theorem cskLe_refl (a : ContractStorageKey) : cskLe a a = true := by
  simp [cskLe]

/-- Seeking the subkey of a freshly inserted entry finds exactly that entry. -/
theorem seekBy_insertBy {α β : Type} [DecidableEq α] (le : α → α → Bool)
    (k : β → α) (e : β) (l : List β) (hrefl : le (k e) (k e) = true) :
    seekBy le k (k e) (insertBy le k e l) = some e := by
  induction l with
  | nil => simp [seekBy, insertBy, List.find?, hrefl]
  | cons x xs ih =>
    by_cases h : le (k e) (k x) = true
    · by_cases hx : k x = k e <;>
        simp [seekBy, insertBy, h, hx, List.find?, hrefl]
    · have h' : le (k e) (k x) = false := by
        cases hle : le (k e) (k x) with
        | true => exact absurd hle h
        | false => rfl
      simpa [seekBy, insertBy, h', List.find?] using ih

/-- On a strictly increasing list, the elements `≤ n` form the prefix of
length `rank n`. -/
theorem filter_le_eq_take (n : Nat) (l : List Nat) (h : l.Sorted (· < ·)) :
    l.filter (fun b => decide (b ≤ n)) = l.take (BlockList.rank l n) := by
  induction l with
  | nil => rfl
  | cons x xs ih =>
    rcases List.sorted_cons.mp h with ⟨hx, hxs⟩
    by_cases hxle : x ≤ n
    · have hrank : BlockList.rank (x :: xs) n = BlockList.rank xs n + 1 := by
        unfold BlockList.rank
        rw [List.filter_cons, if_pos (by simpa using hxle)]
        rfl
      rw [hrank, List.filter_cons, if_pos (by simpa using hxle),
        List.take_succ_cons]
      exact congrArg (List.cons x) (ih hxs)
    · have hnil : xs.filter (fun b => decide (b ≤ n)) = [] := by
        apply List.filter_eq_nil_iff.mpr
        intro y hy
        have : x < y := hx y hy
        simp only [decide_eq_true_eq]
        omega
      have hrank : BlockList.rank (x :: xs) n = 0 := by
        unfold BlockList.rank
        rw [List.filter_cons, if_neg (by simpa using hxle), hnil]
        rfl
      rw [hrank, List.filter_cons, if_neg (by simpa using hxle), hnil]
      rfl

/-- `recent_change_from_block` returns the last element `≤ n` of a strictly
increasing block list (and `none` when there is none). -/
theorem recent_change_eq_getLast_filter (n : Nat) (l : BlockList)
    (h : l.Sorted (· < ·)) :
    recent_change_from_block n l =
      (l.filter (fun b => decide (b ≤ n))).getLast? := by
  have hrw : recent_change_from_block n l =
      if BlockList.rank l n = 0 then none
      else BlockList.select l (BlockList.rank l n - 1) := rfl
  rw [hrw]
  rcases hk : BlockList.rank l n with _ | m
  · have hnil : l.filter (fun b => decide (b ≤ n)) = [] :=
      List.length_eq_zero.mp hk
    simp [hnil]
  · rw [if_neg (Nat.succ_ne_zero m)]
    have hft := filter_le_eq_take n l h
    rw [hk] at hft
    have hlen : m + 1 ≤ l.length := by
      have hle : BlockList.rank l n ≤ l.length := List.length_filter_le _ _
      omega
    rw [hft, List.getLast?_eq_getElem?, List.length_take]
    have hmin : min (m + 1) l.length = m + 1 := by omega
    rw [hmin]
    simp only [Nat.add_sub_cancel]
    rw [List.getElem?_take]
    simp [BlockList.select]

/-- Appending the committing block to a block list whose elements are all
`≤ b` makes `b` the resolved most-recent change at pin `b`. -/
theorem recent_change_append (b : Nat) (l : List Nat)
    (h : ∀ x ∈ l, x ≤ b) :
    recent_change_from_block b (l ++ [b]) = some b := by
  have hf : (l ++ [b]).filter (fun x => decide (x ≤ b)) = l ++ [b] := by
    apply List.filter_eq_self.mpr
    intro a ha
    rcases List.mem_append.mp ha with hmem | hmem
    · simpa using h a hmem
    · simp at hmem
      simp [hmem]
  unfold recent_change_from_block BlockList.rank BlockList.select
  rw [hf, List.length_append]
  simp [List.getElem?_concat_length]

/-- Looking up the subkey of a freshly inserted entry finds exactly that
entry. -/
theorem find?_insertBy_self {α β : Type} [DecidableEq α] (le : α → α → Bool)
    (k : β → α) (e : β) (l : List β) (hrefl : le (k e) (k e) = true) :
    (insertBy le k e l).find? (fun y => decide (k y = k e)) = some e := by
  induction l with
  | nil => simp [insertBy, List.find?]
  | cons x xs ih =>
    simp only [insertBy]
    by_cases h : le (k e) (k x) = true
    · rw [if_pos h]
      by_cases hx : k x = k e
      · rw [if_pos hx]
        simp [List.find?]
      · rw [if_neg hx]
        simp [List.find?]
    · rw [if_neg h]
      have h' : le (k e) (k x) = false := Bool.eq_false_iff.mpr h
      have hxe : ¬ (k x = k e) := by
        intro hcontra
        rw [hcontra, hrefl] at h'
        cases h'
      simp [List.find?, hxe, ih]

/-- Inserting an entry does not affect lookups at other subkeys. -/
theorem find?_insertBy_ne {α β : Type} [DecidableEq α] (le : α → α → Bool)
    (k : β → α) (e : β) (l : List β) (a : α) (hne : a ≠ k e) :
    (insertBy le k e l).find? (fun y => decide (k y = a)) =
      l.find? (fun y => decide (k y = a)) := by
  have hea : ¬ (k e = a) := fun hh => hne hh.symm
  induction l with
  | nil => simp [insertBy, List.find?, hea]
  | cons x xs ih =>
    simp only [insertBy]
    by_cases h : le (k e) (k x) = true
    · rw [if_pos h]
      by_cases hx : k x = k e
      · rw [if_pos hx]
        have hxa : ¬ (k x = a) := by rw [hx]; exact hea
        simp [List.find?, hea, hxa]
      · rw [if_neg hx]
        simp [List.find?, hea]
    · rw [if_neg h]
      by_cases hxa : k x = a
      · simp [List.find?, hxa]
      · simp [List.find?, hxa, ih]

/-- Big-endian round-trip for `u32` values. -/
theorem u32_be_roundtrip (v : Nat) (h : v < 2 ^ 32) :
    u32_from_be_bytes (u32_to_be_bytes v) = v := by
  simp only [u32_from_be_bytes, u32_to_be_bytes, List.foldl]
  omega

/-! ### Claims -/

/-- C1: the historical read resolves pin `N` against a key's BlockList by
`r = rank(N)`; `r = 0` means no change at or before `N` (the storage query
returns `None`), and otherwise the resolved change block is `select(r - 1)`,
the most recent change at or before `N` (the last list element `≤ N`); on
`[1,2,5,6,10]` the resolved block is `None, 1, 2, 5, 6, 10, 10` for pins
`0, 1, 3, 5, 9, 10, 11`. -/
theorem C1_rank_select_resolution (n : Nat) (l : BlockList)
    (h : l.Sorted (· < ·)) :
    (recent_change_from_block n l =
      (l.filter (fun b => decide (b ≤ n))).getLast?)
    ∧ (∀ (s : DbState) (addr key : Felt) (lst : BlockList),
        s.storageChangeSet addr key = some lst →
        BlockList.rank lst n = 0 →
        HistoricalStateProvider.storage s n addr key = .ok none)
    ∧ recent_change_from_block 0 [1, 2, 5, 6, 10] = none
    ∧ recent_change_from_block 1 [1, 2, 5, 6, 10] = some 1
    ∧ recent_change_from_block 3 [1, 2, 5, 6, 10] = some 2
    ∧ recent_change_from_block 5 [1, 2, 5, 6, 10] = some 5
    ∧ recent_change_from_block 9 [1, 2, 5, 6, 10] = some 6
    ∧ recent_change_from_block 10 [1, 2, 5, 6, 10] = some 10
    ∧ recent_change_from_block 11 [1, 2, 5, 6, 10] = some 10 := by
  refine ⟨recent_change_eq_getLast_filter n l h, ?_, by decide, by decide,
    by decide, by decide, by decide, by decide, by decide⟩
  intro s addr key lst hset hrank
  simp [HistoricalStateProvider.storage, resolveStorageChange, hset,
    recent_change_from_block, hrank]

/-- Witness for C1 at pin 3 over the BlockList `[1,2,5,6,10]`. -/
theorem C1_rank_select_resolution_witness :
    ([1, 2, 5, 6, 10] : BlockList).Sorted (· < ·)
    ∧ recent_change_from_block 3 [1, 2, 5, 6, 10] =
        (([1, 2, 5, 6, 10] : BlockList).filter
          (fun b => decide (b ≤ 3))).getLast? :=
  ⟨by decide, (C1_rank_select_resolution 3 [1, 2, 5, 6, 10] (by decide)).1⟩

/-- C4: opening an initialized database whose 4-byte stamp decodes to
`v ≠ 7` succeeds iff `v` lies in the compatibility window `[5, 7]`, in which
case `require_migration()` is true; otherwise it fails with
`MismatchVersion` naming expected `7` and found `v` (e.g. found `99`). -/
theorem C4_version_window (v : Nat) (ro : Bool) (hlt : v < 2 ^ 32)
    (hne : v ≠ 7) :
    ((5 ≤ v ∧ v ≤ 7) →
      Db.new false (some ⟨u32_to_be_bytes v, ro⟩) =
          .ok (v, some ⟨u32_to_be_bytes v, ro⟩)
        ∧ Db.require_migration v = true)
    ∧ (¬ (5 ≤ v ∧ v ≤ 7) →
      Db.new false (some ⟨u32_to_be_bytes v, ro⟩) =
        .error (.MismatchVersion 7 v))
    ∧ Db.new false (some ⟨u32_to_be_bytes 99, ro⟩) =
        .error (.MismatchVersion 7 99) := by
  have hget : get_db_version (some ⟨u32_to_be_bytes v, ro⟩) = .ok v := by
    simp only [get_db_version, u32_to_be_bytes]
    norm_num
    exact u32_be_roundtrip v hlt
  refine ⟨?_, ?_, by rfl⟩
  · rintro ⟨h5, h7⟩
    refine ⟨?_, ?_⟩
    · simp [Db.new, hget, CURRENT_DB_VERSION, hne,
        is_block_compatible_version, h5, h7]
    · simp [Db.require_migration, CURRENT_DB_VERSION, hne]
  · intro hwin
    simp [Db.new, hget, CURRENT_DB_VERSION, hne,
      is_block_compatible_version, hwin]

/-- Witness for C4 at `v = 6` (inside the window) and the `99` scenario. -/
theorem C4_version_window_witness :
    (6 : Nat) < 2 ^ 32 ∧ (6 : Nat) ≠ 7 ∧ (5 ≤ 6 ∧ (6 : Nat) ≤ 7)
    ∧ (Db.new false (some ⟨u32_to_be_bytes 6, true⟩) =
          .ok (6, some ⟨u32_to_be_bytes 6, true⟩)
        ∧ Db.require_migration 6 = true)
    ∧ Db.new false (some ⟨u32_to_be_bytes 99, true⟩) =
        .error (.MismatchVersion 7 99) :=
  ⟨by decide, by decide, by decide,
    (C4_version_window 6 true (by decide) (by decide)).1 (by decide),
    (C4_version_window 6 true (by decide) (by decide)).2.2⟩

/-- C5: when no version file exists (fresh empty directory, or the stamp was
deleted from an initialized directory) open writes a fresh read-only stamp
containing the 4-byte big-endian value `7` and proceeds; a stamp whose byte
length is not 4 makes open fail with `MalformedContent`. -/
theorem C5_version_file_selfheal :
    Db.new true none = .ok (7, some ⟨[0, 0, 0, 7], true⟩)
    ∧ Db.new false none = .ok (7, some ⟨[0, 0, 0, 7], true⟩)
    ∧ create_db_version_file 7 = ⟨[0, 0, 0, 7], true⟩
    ∧ (∀ (bytes : List Nat) (ro : Bool), bytes.length ≠ 4 →
        Db.new false (some ⟨bytes, ro⟩) = .error .MalformedContent) := by
  refine ⟨rfl, rfl, rfl, ?_⟩
  intro bytes ro hlen
  have hget : get_db_version (some ⟨bytes, ro⟩) = .error .MalformedContent := by
    simp [get_db_version, hlen]
  simp [Db.new, hget]

/-- Witness for C5 with a 3-byte (truncated) stamp. -/
theorem C5_version_file_selfheal_witness :
    ([0, 0, 7] : List Nat).length ≠ 4
    ∧ Db.new false (some ⟨[0, 0, 7], false⟩) = .error .MalformedContent :=
  ⟨by decide, C5_version_file_selfheal.2.2.2 [0, 0, 7] false (by decide)⟩

/-- C6: under a historical pin `N`, `class` and
`compiled_class_hash_of_class_hash` return a value only if the recorded
declaration block is `≤ N`, and return `None` otherwise regardless of the
class tables' contents; a class declared at block 10 is invisible under pin 9
and visible under pin 10. -/
theorem C6_class_declaration_visibility (s : DbState) (N : BlockNumber)
    (h : ClassHash) :
    (∀ c, HistoricalStateProvider.class s N h = some c →
      ∃ d, s.classDeclarationBlock h = some d ∧ d ≤ N)
    ∧ (∀ ch, HistoricalStateProvider.compiled_class_hash_of_class_hash s N h
        = some ch → ∃ d, s.classDeclarationBlock h = some d ∧ d ≤ N)
    ∧ (∀ d, s.classDeclarationBlock h = some d → N < d →
        HistoricalStateProvider.class s N h = none
        ∧ HistoricalStateProvider.compiled_class_hash_of_class_hash s N h
            = none)
    ∧ (s.classDeclarationBlock h = none →
        HistoricalStateProvider.class s N h = none
        ∧ HistoricalStateProvider.compiled_class_hash_of_class_hash s N h
            = none)
    ∧ (s.classDeclarationBlock h = some 10 →
        HistoricalStateProvider.class s 9 h = none
        ∧ HistoricalStateProvider.compiled_class_hash_of_class_hash s 9 h
            = none
        ∧ HistoricalStateProvider.class s 10 h = s.classes h
        ∧ HistoricalStateProvider.compiled_class_hash_of_class_hash s 10 h
            = s.compiledClassHashes h) := by
  refine ⟨?_, ?_, ?_, ?_, ?_⟩
  · intro c hc
    unfold HistoricalStateProvider.class is_class_declared_before_block at hc
    cases hd : s.classDeclarationBlock h with
    | none => rw [hd] at hc; simp at hc
    | some d =>
      rw [hd] at hc
      by_cases hdn : d ≤ N
      · exact ⟨d, rfl, hdn⟩
      · simp [hdn] at hc
  · intro ch hc
    unfold HistoricalStateProvider.compiled_class_hash_of_class_hash
      is_class_declared_before_block at hc
    cases hd : s.classDeclarationBlock h with
    | none => rw [hd] at hc; simp at hc
    | some d =>
      rw [hd] at hc
      by_cases hdn : d ≤ N
      · exact ⟨d, rfl, hdn⟩
      · simp [hdn] at hc
  · intro d hd hNd
    have hnotle : ¬ (d ≤ N) := Nat.not_le.mpr hNd
    constructor <;>
      simp [HistoricalStateProvider.class,
        HistoricalStateProvider.compiled_class_hash_of_class_hash,
        is_class_declared_before_block, hd, hnotle]
  · intro hd
    constructor <;>
      simp [HistoricalStateProvider.class,
        HistoricalStateProvider.compiled_class_hash_of_class_hash,
        is_class_declared_before_block, hd]
  · intro hd
    refine ⟨?_, ?_, ?_, ?_⟩ <;>
      simp [HistoricalStateProvider.class,
        HistoricalStateProvider.compiled_class_hash_of_class_hash,
        is_class_declared_before_block, hd]

/-- Witness for C6 on a class declared at block 10. -/
theorem C6_class_declaration_visibility_witness :
    declaredAt10State.classDeclarationBlock 1 = some 10
    ∧ (HistoricalStateProvider.class declaredAt10State 9 1 = none
      ∧ HistoricalStateProvider.compiled_class_hash_of_class_hash
          declaredAt10State 9 1 = none
      ∧ HistoricalStateProvider.class declaredAt10State 10 1 =
          declaredAt10State.classes 1
      ∧ HistoricalStateProvider.compiled_class_hash_of_class_hash
          declaredAt10State 10 1 = declaredAt10State.compiledClassHashes 1) :=
  ⟨by decide,
    (C6_class_declaration_visibility declaredAt10State 9 1).2.2.2.2 (by decide)⟩

/-- C7: a key to which no write was ever committed reads as `None` under the
Latest provider and under every historical pin `N` (including 0 and any
maximum committed block). -/
theorem C7_never_written_reads_none (s : DbState) (addr : ContractAddress)
    (key : StorageKey) (ch : ClassHash)
    (h1 : s.contractInfo addr = none)
    (h2 : ∀ e ∈ s.contractStorage addr, e.key ≠ key)
    (h3 : s.contractInfoChangeSet addr = none)
    (h4 : s.storageChangeSet addr key = none)
    (h5 : s.classes ch = none)
    (h6 : s.compiledClassHashes ch = none)
    (h7 : s.classDeclarationBlock ch = none) :
    LatestStateProvider.nonce s addr = none
    ∧ LatestStateProvider.class_hash_of_contract s addr = none
    ∧ LatestStateProvider.storage s addr key = none
    ∧ LatestStateProvider.class s ch = none
    ∧ LatestStateProvider.compiled_class_hash_of_class_hash s ch = none
    ∧ ∀ N : BlockNumber,
        HistoricalStateProvider.nonce s N addr = .ok none
        ∧ HistoricalStateProvider.class_hash_of_contract s N addr = .ok none
        ∧ HistoricalStateProvider.storage s N addr key = .ok none
        ∧ HistoricalStateProvider.class s N ch = none
        ∧ HistoricalStateProvider.compiled_class_hash_of_class_hash s N ch
            = none := by
  refine ⟨?_, ?_, ?_, ?_, ?_, ?_⟩
  · simp [LatestStateProvider.nonce, h1]
  · simp [LatestStateProvider.class_hash_of_contract, h1]
  · unfold LatestStateProvider.storage seekBy
    cases hseek : List.find? (fun y => leNat key y.key)
        (s.contractStorage addr) with
    | none => simp
    | some e =>
      have hmem : e ∈ s.contractStorage addr :=
        List.mem_of_find?_eq_some hseek
      simp [h2 e hmem]
  · simp [LatestStateProvider.class, h5]
  · simp [LatestStateProvider.compiled_class_hash_of_class_hash, h6]
  · intro N
    refine ⟨?_, ?_, ?_, ?_, ?_⟩
    · simp [HistoricalStateProvider.nonce, resolveNonceChange, h3]
    · simp [HistoricalStateProvider.class_hash_of_contract,
        resolveClassChange, h3]
    · simp [HistoricalStateProvider.storage, resolveStorageChange, h4]
    · simp [HistoricalStateProvider.class, is_class_declared_before_block, h7]
    · simp [HistoricalStateProvider.compiled_class_hash_of_class_hash,
        is_class_declared_before_block, h7]

/-- Witness for C7 in the empty database at pins 0 and 10. -/
theorem C7_never_written_reads_none_witness :
    LatestStateProvider.nonce DbState.empty 1 = none
    ∧ HistoricalStateProvider.storage DbState.empty 0 1 2 = .ok none
    ∧ HistoricalStateProvider.nonce DbState.empty 10 1 = .ok none :=
  ⟨(C7_never_written_reads_none DbState.empty 1 2 3 rfl (by decide) rfl rfl rfl
      rfl rfl).1,
   ((C7_never_written_reads_none DbState.empty 1 2 3 rfl (by decide) rfl rfl rfl
      rfl rfl).2.2.2.2.2 0).2.2.1,
   ((C7_never_written_reads_none DbState.empty 1 2 3 rfl (by decide) rfl rfl rfl
      rfl rfl).2.2.2.2.2 10).1⟩

/-- C9: binding a trie to a historical block that was never committed fails,
and every root/multiproof access through a historical provider pinned to an
unknown block fails (the failure outcome, a panic in the code, is modelled as
`none`) rather than yielding any latest-state result. -/
theorem C9_unknown_block_trie_fails (s : DbState) (b : BlockNumber)
    (htrie : s.trieSnapshots b = none) (hhdr : s.headers b = none) :
    TrieDbFactory.historical s b = none
    ∧ HistoricalStateProvider.classes_root s b = none
    ∧ HistoricalStateProvider.contracts_root s b = none
    ∧ (∀ c, HistoricalStateProvider.storage_root s b c = none)
    ∧ (∀ cs, HistoricalStateProvider.class_multiproof s b cs = none)
    ∧ (∀ ads, HistoricalStateProvider.contract_multiproof s b ads = none)
    ∧ (∀ a ks, HistoricalStateProvider.storage_multiproof s b a ks = none)
    ∧ HistoricalStateProvider.state_root s b = none := by
  refine ⟨?_, ?_, ?_, ?_, ?_, ?_, ?_, ?_⟩ <;>
    simp [TrieDbFactory.historical, HistoricalStateProvider.classes_root,
      HistoricalStateProvider.contracts_root,
      HistoricalStateProvider.storage_root,
      HistoricalStateProvider.class_multiproof,
      HistoricalStateProvider.contract_multiproof,
      HistoricalStateProvider.storage_multiproof,
      HistoricalStateProvider.state_root, htrie, hhdr]

/-- Witness for C9 in the empty database at pin 5. -/
theorem C9_unknown_block_trie_fails_witness :
    HistoricalStateProvider.classes_root DbState.empty 5 = none
    ∧ HistoricalStateProvider.class_multiproof DbState.empty 5 [1, 2] = none :=
  ⟨(C9_unknown_block_trie_fails DbState.empty 5 rfl rfl).2.1,
   (C9_unknown_block_trie_fails DbState.empty 5 rfl rfl).2.2.2.2.1 [1, 2]⟩

/-- C10: `set_nonce` writes the new nonce while preserving the contract's
class-hash binding (zero for a previously unknown contract) and touching no
other address; `set_class_hash_of_contract` writes the new class hash while
preserving the nonce and touching no other address; neither touches any other
table. -/
theorem C10_contract_info_frame (s : DbState) (a : ContractAddress)
    (n : Nonce) (h : ClassHash) :
    (DbProvider.set_nonce s a n).contractInfo a =
      some ⟨n, ((s.contractInfo a).getD GenericContractInfo.default).class_hash⟩
    ∧ (∀ b, b ≠ a →
        (DbProvider.set_nonce s a n).contractInfo b = s.contractInfo b)
    ∧ (DbProvider.set_nonce s a n).contractStorage = s.contractStorage
    ∧ (DbProvider.set_nonce s a n).classes = s.classes
    ∧ (DbProvider.set_class_hash_of_contract s a h).contractInfo a =
      some ⟨((s.contractInfo a).getD GenericContractInfo.default).nonce, h⟩
    ∧ (∀ b, b ≠ a →
        (DbProvider.set_class_hash_of_contract s a h).contractInfo b =
          s.contractInfo b)
    ∧ (DbProvider.set_class_hash_of_contract s a h).contractStorage =
        s.contractStorage
    ∧ (DbProvider.set_class_hash_of_contract s a h).classes = s.classes := by
  refine ⟨?_, ?_, rfl, rfl, ?_, ?_, rfl, rfl⟩
  · unfold DbProvider.set_nonce
    cases hinfo : s.contractInfo a <;>
      simp [hinfo, GenericContractInfo.default]
  · intro b hb
    simp [DbProvider.set_nonce, hb]
  · unfold DbProvider.set_class_hash_of_contract
    cases hinfo : s.contractInfo a <;>
      simp [hinfo, GenericContractInfo.default]
  · intro b hb
    simp [DbProvider.set_class_hash_of_contract, hb]

/-- Witness for C10 in the empty database. -/
theorem C10_contract_info_frame_witness :
    (DbProvider.set_nonce DbState.empty 1 5).contractInfo 1 =
      some ⟨5, ((DbState.empty.contractInfo 1).getD
        GenericContractInfo.default).class_hash⟩
    ∧ (2 : ContractAddress) ≠ 1
    ∧ (DbProvider.set_nonce DbState.empty 1 5).contractInfo 2 =
        DbState.empty.contractInfo 2 :=
  ⟨(C10_contract_info_frame DbState.empty 1 5 9).1, by decide,
   (C10_contract_info_frame DbState.empty 1 5 9).2.1 2 (by decide)⟩

/-- Round-trip for the nonce committed at block `b`. -/
theorem nonce_roundtrip (s : DbState) (b : BlockNumber)
    (addr : ContractAddress) (v : Nonce)
    (h : ∀ x ∈ ((s.contractInfoChangeSet addr).getD
      ContractInfoChangeList.default).nonce_change_list, x ≤ b) :
    HistoricalStateProvider.nonce (commitNonceChange s b addr v) b addr =
      .ok (some v) := by
  have hcs : (commitNonceChange s b addr v).contractInfoChangeSet addr =
      some { (s.contractInfoChangeSet addr).getD ContractInfoChangeList.default
        with nonce_change_list :=
          ((s.contractInfoChangeSet addr).getD
            ContractInfoChangeList.default).nonce_change_list ++ [b] } := by
    simp [commitNonceChange, DbProvider.set_nonce]
  have hres : resolveNonceChange (commitNonceChange s b addr v) b addr =
      some b := by
    unfold resolveNonceChange
    rw [hcs]
    simpa using recent_change_append b _ h
  have hhist : (commitNonceChange s b addr v).nonceChangeHistory b =
      insertBy leNat (fun e => e.contract_address) ⟨addr, v⟩
        (s.nonceChangeHistory b) := by
    simp [commitNonceChange, DbProvider.set_nonce]
  have hseek := seekBy_insertBy leNat
    (fun e : ContractNonceChange => e.contract_address) ⟨addr, v⟩
    (s.nonceChangeHistory b) (leNat_refl addr)
  unfold HistoricalStateProvider.nonce
  rw [hres]
  simp only [hhist]
  rw [hseek]
  simp

/-- Round-trip for the class binding committed at block `b`. -/
theorem class_roundtrip (s : DbState) (b : BlockNumber)
    (addr : ContractAddress) (v : ClassHash)
    (h : ∀ x ∈ ((s.contractInfoChangeSet addr).getD
      ContractInfoChangeList.default).class_change_list, x ≤ b) :
    HistoricalStateProvider.class_hash_of_contract
      (commitClassChange s b addr v) b addr = .ok (some v) := by
  have hcs : (commitClassChange s b addr v).contractInfoChangeSet addr =
      some { (s.contractInfoChangeSet addr).getD ContractInfoChangeList.default
        with class_change_list :=
          ((s.contractInfoChangeSet addr).getD
            ContractInfoChangeList.default).class_change_list ++ [b] } := by
    simp [commitClassChange, DbProvider.set_class_hash_of_contract]
  have hres : resolveClassChange (commitClassChange s b addr v) b addr =
      some b := by
    unfold resolveClassChange
    rw [hcs]
    simpa using recent_change_append b _ h
  have hhist : (commitClassChange s b addr v).classChangeHistory b =
      insertBy leNat (fun e => e.contract_address) ⟨addr, v⟩
        (s.classChangeHistory b) := by
    simp [commitClassChange, DbProvider.set_class_hash_of_contract]
  have hseek := seekBy_insertBy leNat
    (fun e : ContractClassChange => e.contract_address) ⟨addr, v⟩
    (s.classChangeHistory b) (leNat_refl addr)
  unfold HistoricalStateProvider.class_hash_of_contract
  rw [hres]
  simp only [hhist]
  rw [hseek]
  simp

/-- Round-trip for the storage slot committed at block `b`. -/
theorem storage_roundtrip (s : DbState) (b : BlockNumber)
    (addr : ContractAddress) (key : StorageKey) (v : StorageValue)
    (h : ∀ x ∈ (s.storageChangeSet addr key).getD [], x ≤ b) :
    HistoricalStateProvider.storage (commitStorageChange s b addr key v) b
      addr key = .ok (some v) := by
  have hcs : (commitStorageChange s b addr key v).storageChangeSet addr key =
      some ((s.storageChangeSet addr key).getD [] ++ [b]) := by
    simp [commitStorageChange, DbProvider.set_storage]
  have hres : resolveStorageChange (commitStorageChange s b addr key v) b
      addr key = some b := by
    unfold resolveStorageChange
    rw [hcs]
    simpa using recent_change_append b _ h
  have hhist : (commitStorageChange s b addr key v).storageChangeHistory b =
      insertBy cskLe (fun e => e.key) ⟨⟨addr, key⟩, v⟩
        (s.storageChangeHistory b) := by
    simp [commitStorageChange, DbProvider.set_storage]
  have hseek := seekBy_insertBy cskLe
    (fun e : ContractStorageEntry => e.key) ⟨⟨addr, key⟩, v⟩
    (s.storageChangeHistory b) (cskLe_refl ⟨addr, key⟩)
  unfold HistoricalStateProvider.storage
  rw [hres]
  simp only [hhist]
  rw [hseek]
  simp

/-- C2: a value written for an entity key (nonce, class binding, or storage
slot) as part of committing block `N` reads back exactly via a historical
provider pinned to `N`, provided every earlier recorded change block is
`≤ N` (the BlockList append-only invariant). -/
theorem C2_write_read_roundtrip (s : DbState) (b : BlockNumber)
    (addr : ContractAddress) (key : StorageKey) (v : StorageValue)
    (nv : Nonce) (chv : ClassHash)
    (hn : ∀ x ∈ ((s.contractInfoChangeSet addr).getD
      ContractInfoChangeList.default).nonce_change_list, x ≤ b)
    (hc : ∀ x ∈ ((s.contractInfoChangeSet addr).getD
      ContractInfoChangeList.default).class_change_list, x ≤ b)
    (hs : ∀ x ∈ (s.storageChangeSet addr key).getD [], x ≤ b) :
    HistoricalStateProvider.nonce (commitNonceChange s b addr nv) b addr =
      .ok (some nv)
    ∧ HistoricalStateProvider.class_hash_of_contract
        (commitClassChange s b addr chv) b addr = .ok (some chv)
    ∧ HistoricalStateProvider.storage (commitStorageChange s b addr key v) b
        addr key = .ok (some v) :=
  ⟨nonce_roundtrip s b addr nv hn, class_roundtrip s b addr chv hc,
   storage_roundtrip s b addr key v hs⟩

/-- Witness for C2: commits into the empty database at block 4. -/
theorem C2_write_read_roundtrip_witness :
    HistoricalStateProvider.nonce (commitNonceChange DbState.empty 4 1 3) 4 1
      = .ok (some 3)
    ∧ HistoricalStateProvider.storage
        (commitStorageChange DbState.empty 4 1 2 9) 4 1 2 = .ok (some 9) :=
  ⟨(C2_write_read_roundtrip DbState.empty 4 1 2 9 3 7 (by decide) (by decide)
      (by decide)).1,
   (C2_write_read_roundtrip DbState.empty 4 1 2 9 3 7 (by decide) (by decide)
      (by decide)).2.2⟩

/-- C3 counterexample: at pin 5 the BlockList for slot `(1, 2)` resolves
target block 5 and the dup-sorted seek finds a row whose embedded key is
`(1, 3)` — not an exact match — yet the storage query returns `Ok(None)`
rather than the missing-change-entry error the claim requires. -/
theorem C3_mismatched_key_counterexample :
    resolveStorageChange mismatchRowState 5 1 2 = some 5
    ∧ seekBy cskLe (fun e => e.key) ⟨1, 2⟩
        (mismatchRowState.storageChangeHistory 5) = some ⟨⟨1, 3⟩, 42⟩
    ∧ ¬ ((⟨⟨1, 3⟩, 42⟩ : ContractStorageEntry).key.contract_address = 1
        ∧ (⟨⟨1, 3⟩, 42⟩ : ContractStorageEntry).key.key = 2)
    ∧ HistoricalStateProvider.storage mismatchRowState 5 1 2 = .ok none
    ∧ HistoricalStateProvider.storage mismatchRowState 5 1 2 ≠
        .error (.MissingStorageChangeEntry 5 1 2) := by
  refine ⟨by decide, by decide, by decide, by decide, by decide⟩

/-- C3 (amended): when the BlockList resolves a target change block but the
dup-sorted seek finds no row at all, the historical query fails with the
missing-change-entry error naming the block and the key; when the seek finds
a row whose embedded key does not exactly match, the query returns `Ok(None)`
(not an error). -/
theorem C3_missing_change_entry_behavior (s : DbState) (N : BlockNumber)
    (addr : ContractAddress) (key : StorageKey) :
    (∀ num, resolveNonceChange s N addr = some num →
      (seekBy leNat (fun e => e.contract_address) addr
          (s.nonceChangeHistory num) = none →
        HistoricalStateProvider.nonce s N addr =
          .error (.MissingContractNonceChangeEntry num addr))
      ∧ (∀ e, seekBy leNat (fun e => e.contract_address) addr
            (s.nonceChangeHistory num) = some e →
          e.contract_address ≠ addr →
          HistoricalStateProvider.nonce s N addr = .ok none))
    ∧ (∀ num, resolveClassChange s N addr = some num →
      (seekBy leNat (fun e => e.contract_address) addr
          (s.classChangeHistory num) = none →
        HistoricalStateProvider.class_hash_of_contract s N addr =
          .error (.MissingContractClassChangeEntry num addr))
      ∧ (∀ e, seekBy leNat (fun e => e.contract_address) addr
            (s.classChangeHistory num) = some e →
          e.contract_address ≠ addr →
          HistoricalStateProvider.class_hash_of_contract s N addr = .ok none))
    ∧ (∀ num, resolveStorageChange s N addr key = some num →
      (seekBy cskLe (fun e => e.key) ⟨addr, key⟩
          (s.storageChangeHistory num) = none →
        HistoricalStateProvider.storage s N addr key =
          .error (.MissingStorageChangeEntry num addr key))
      ∧ (∀ e, seekBy cskLe (fun e => e.key) ⟨addr, key⟩
            (s.storageChangeHistory num) = some e →
          ¬ (e.key.contract_address = addr ∧ e.key.key = key) →
          HistoricalStateProvider.storage s N addr key = .ok none)) := by
  refine ⟨?_, ?_, ?_⟩
  · intro num hres
    constructor
    · intro hseek
      unfold HistoricalStateProvider.nonce
      rw [hres]
      simp only [hseek]
    · intro e hseek hne
      unfold HistoricalStateProvider.nonce
      rw [hres]
      simp only [hseek]
      simp [hne]
  · intro num hres
    constructor
    · intro hseek
      unfold HistoricalStateProvider.class_hash_of_contract
      rw [hres]
      simp only [hseek]
    · intro e hseek hne
      unfold HistoricalStateProvider.class_hash_of_contract
      rw [hres]
      simp only [hseek]
      simp [hne]
  · intro num hres
    constructor
    · intro hseek
      unfold HistoricalStateProvider.storage
      rw [hres]
      simp only [hseek]
    · intro e hseek hne
      unfold HistoricalStateProvider.storage
      rw [hres]
      simp only [hseek]
      simp [hne]

/-- Witness for the amended C3: a resolved target with an empty block-5 dup
group yields the error for nonce and storage queries; a resolved target whose
row carries a mismatched key yields `Ok(None)`. -/
theorem C3_missing_change_entry_behavior_witness :
    HistoricalStateProvider.nonce absentRowState 5 1 =
      .error (.MissingContractNonceChangeEntry 5 1)
    ∧ HistoricalStateProvider.storage absentRowState 5 1 2 =
      .error (.MissingStorageChangeEntry 5 1 2)
    ∧ HistoricalStateProvider.storage mismatchRowState 5 1 2 = .ok none :=
  ⟨((C3_missing_change_entry_behavior absentRowState 5 1 2).1 5
      (by decide)).1 (by decide),
   ((C3_missing_change_entry_behavior absentRowState 5 1 2).2.2 5
      (by decide)).1 (by decide),
   ((C3_missing_change_entry_behavior mismatchRowState 5 1 2).2.2 5
      (by decide)).2 ⟨⟨1, 3⟩, 42⟩ (by decide) (by decide)⟩

/-- A found entry satisfies the search predicate (stated with the predicate
explicit to guide elaboration). -/
theorem find?_pred_of_eq_some {γ : Type} (p : γ → Bool) (l : List γ) (r : γ)
    (h : l.find? p = some r) : p r = true :=
  List.find?_some h

/-- C8: cursor `insert(key, value)` fails with a keyed write error naming the
table, the encoded key and the underlying `KeyExist` cause whenever an entry
already occupies that exact position, leaving the table unchanged, and
succeeds otherwise; `upsert(key, value)` always succeeds by overwriting and
touches no other key. -/
theorem C8_cursor_insert_upsert {V : Type} (t : PlainTable Nat V)
    (key : Nat) (value : V) :
    ((∃ v0, t.get key = some v0) →
      (t.insert leNat u64_encode key value).1 =
        .error (.Write t.name .KeyExist (u64_encode key))
      ∧ (t.insert leNat u64_encode key value).2 = t)
    ∧ (t.get key = none →
      (t.insert leNat u64_encode key value).1 = .ok ()
      ∧ (t.insert leNat u64_encode key value).2.get key = some value)
    ∧ (t.upsert leNat key value).get key = some value
    ∧ (∀ k', k' ≠ key →
        (t.upsert leNat key value).get k' = t.get k') := by
  have hself : (insertBy leNat (fun r : Nat × V => r.1) (key, value)
      t.rows).find? (fun y => decide (y.1 = key)) = some (key, value) := by
    simpa using find?_insertBy_self leNat (fun r : Nat × V => r.1)
      (key, value) t.rows (leNat_refl key)
  refine ⟨?_, ?_, ?_, ?_⟩
  · rintro ⟨v0, hv⟩
    have hfind : ∃ r, t.rows.find? (fun r => decide (r.1 = key)) = some r := by
      cases hf : t.rows.find? (fun r => decide (r.1 = key)) with
      | none =>
        unfold PlainTable.get at hv
        rw [hf] at hv
        simp at hv
      | some r => exact ⟨r, rfl⟩
    obtain ⟨r, hr⟩ := hfind
    have hpred := find?_pred_of_eq_some (fun r : Nat × V => decide (r.1 = key))
      t.rows r hr
    have hany : t.rows.any (fun r => decide (r.1 = key)) = true :=
      List.any_eq_true.mpr ⟨r, List.mem_of_find?_eq_some hr, hpred⟩
    constructor <;> simp [PlainTable.insert, hany]
  · intro hnone
    have hfind : t.rows.find? (fun r => decide (r.1 = key)) = none := by
      cases hf : t.rows.find? (fun r => decide (r.1 = key)) with
      | none => rfl
      | some r =>
        unfold PlainTable.get at hnone
        rw [hf] at hnone
        simp at hnone
    have hany : t.rows.any (fun r => decide (r.1 = key)) = false :=
      List.any_eq_false.mpr (by
        intro x hx
        have := List.find?_eq_none.mp hfind x hx
        simpa using this)
    refine ⟨by simp [PlainTable.insert, hany], ?_⟩
    simp [PlainTable.insert, hany, PlainTable.get, hself]
  · simp [PlainTable.upsert, PlainTable.get, hself]
  · intro k' hk
    have hne : (insertBy leNat (fun r : Nat × V => r.1) (key, value)
        t.rows).find? (fun y => decide (y.1 = k')) =
          t.rows.find? (fun y => decide (y.1 = k')) := by
      simpa using find?_insertBy_ne leNat (fun r : Nat × V => r.1)
        (key, value) t.rows k' (by simpa using hk)
    simp [PlainTable.upsert, PlainTable.get, hne]

/-- Witness for C8 on a two-row table with u64 keys. -/
theorem C8_cursor_insert_upsert_witness :
    ((blockHashesTable.insert leNat u64_encode 1 7).1 =
        .error (.Write blockHashesTable.name .KeyExist (u64_encode 1))
      ∧ (blockHashesTable.insert leNat u64_encode 1 7).2 = blockHashesTable)
    ∧ (blockHashesTable.upsert leNat 1 7).get 1 = some 7 :=
  ⟨(C8_cursor_insert_upsert blockHashesTable 1 7).1 ⟨0, by decide⟩,
   (C8_cursor_insert_upsert blockHashesTable 1 7).2.2.1⟩
